import Mathlib

/-!
Shallow embedding of the bootupd update-orchestration core (`src/bootupd.rs`).

The persisted-state engine is modelled as pure functions over an explicit
filesystem snapshot `Fs` (the two files of interest under the target root:
the canonical state file and its temporary sibling), together with a trace
of the filesystem/lock operations each code path performs, in program
order.  Fallible Rust functions returning `anyhow::Result` become values of
`Except String`.  Component implementations (`dyn Component`) are modelled
as records of their capability functions; the registry is an explicit list.

Types that live in `model.rs` / `component.rs` (outside the excerpt) are
modelled from the spec where noted.
-/

set_option autoImplicit false

/-- `STATEFILE_DIR` from `bootupd.rs`. -/
def STATEFILE_DIR : String := "boot"

/-- `STATEFILE_NAME` from `bootupd.rs`. -/
def STATEFILE_NAME : String := "bootupd-state.json"

/-- `WRITE_LOCK_PATH` from `bootupd.rs`. -/
def WRITE_LOCK_PATH : String := "run/bootupd-lock"

/-- Modelled from the spec: `ContentMetadata` lives in `model.rs`, which is
not part of the excerpt.  The spec describes it as an immutable version
identifier plus a content fingerprint, comparable so that upgrade decisions
can ask whether a candidate is strictly newer.  Versions are modelled as
naturals ordered by `<`. -/
structure ContentMetadata where
  version : Nat
  fingerprint : String
deriving DecidableEq, Repr

/-- Modelled from the spec: `can_upgrade_to` (in `model.rs`, outside the
excerpt) holds only if the candidate's version is strictly newer; equal or
older versions are not upgrades. -/
def ContentMetadata.can_upgrade_to (cur cand : ContentMetadata) : Bool :=
  cur.version < cand.version

/-- Modelled from the spec: `InstalledContent` (in `model.rs`, outside the
excerpt) is the record of a currently-installed component: its metadata
plus installation-specific bookkeeping (abstracted as a string). -/
structure InstalledContent where
  meta : ContentMetadata
  bookkeeping : String
deriving DecidableEq, Repr

/-- Association-list lookup, modelling `BTreeMap::get`. -/
def alist_get {α : Type} (m : List (String × α)) (k : String) : Option α :=
  match m with
  | [] => none
  | (k2, v) :: rest => if k2 = k then some v else alist_get rest k

/-- Association-list insertion, modelling `BTreeMap::insert` (replaces any
existing entry for the key). -/
def alist_insert {α : Type} (m : List (String × α)) (k : String) (v : α) :
    List (String × α) :=
  match m with
  | [] => [(k, v)]
  | (k2, v2) :: rest =>
    if k2 = k then (k2, v) :: rest else (k2, v2) :: alist_insert rest k v

/-- Association-list removal, modelling `BTreeMap::remove`. -/
def alist_remove {α : Type} (m : List (String × α)) (k : String) :
    List (String × α) :=
  m.filter (fun p => !(p.1 == k))

/-- `SavedState` from `model.rs` as used by `bootupd.rs`: the durable record
mapping component names to installed content, plus the optional `pending`
map of begun-but-unconfirmed updates.  Field defaults model Rust's
`Default`. -/
structure SavedState where
  installed : List (String × InstalledContent) := []
  pending : Option (List (String × ContentMetadata)) := none
deriving DecidableEq, Repr

/-- One observable filesystem/lock operation performed by the orchestrator,
named after the call in `bootupd.rs` that performs it. -/
inductive FsOp where
  /-- `acquire_write_lock`: exclusive advisory lock on the target root. -/
  | acquire_lock
  /-- `get_saved_state`: read the canonical state file. -/
  | load_state
  /-- `new_unnamed_file`: create an anonymous file in the state directory. -/
  | new_unnamed_file
  /-- `serde_json::to_writer`: serialize the given state into the file. -/
  | serialize (state : SavedState)
  /-- `BufWriter::flush`: flush buffered bytes to the file descriptor. -/
  | flush
  /-- `remove_file` of the stale temporary name. -/
  | remove_file_tmp
  /-- `link_file_at`: give the anonymous file the temporary name. -/
  | link_file_at_tmp
  /-- `File::sync_all`: durably sync the file to storage. -/
  | sync_all
  /-- `local_rename`: atomically rename the temporary name over the
  canonical state filename. -/
  | local_rename
deriving DecidableEq, Repr

/-- The two files of interest under the target root: the canonical state
file `boot/bootupd-state.json` and the temporary `boot/bootupd-state.json.tmp`
(each `none` when absent). -/
structure Fs where
  stateFile : Option SavedState := none
  tmpFile : Option SavedState := none
deriving DecidableEq, Repr

/-- `update_state` from `bootupd.rs`: atomically replace the on-disk state
with a new version.  Returns the resulting filesystem and the trace of
operations, in program order: create an unnamed file, serialize, flush,
remove a stale temporary name if present, link the unnamed file to the
temporary name, sync, rename over the canonical name. -/
def update_state (fs : Fs) (state : SavedState) : Fs × List FsOp :=
  let prep := [FsOp.new_unnamed_file, FsOp.serialize state, FsOp.flush]
  let cleanup :=
    match fs.tmpFile with
    | some _ => ({ fs with tmpFile := none }, [FsOp.remove_file_tmp])
    | none => (fs, ([] : List FsOp))
  let fs2 : Fs := { cleanup.1 with tmpFile := some state }
  let fs3 : Fs := { fs2 with stateFile := some state, tmpFile := none }
  (fs3, prep ++ cleanup.2 ++ [FsOp.link_file_at_tmp, FsOp.sync_all, FsOp.local_rename])

/-- `get_saved_state` from `bootupd.rs`: load the canonical state file,
`none` if it does not exist. -/
def get_saved_state (fs : Fs) : Option SavedState :=
  fs.stateFile

/-- The save protocol exactly as the spec words it, for comparison with
`update_state`: serialize to a fresh unnamed file, flush and durably sync
its contents, link it to a temporary name (removing any stale temporary
name first), sync again, then rename. -/
def spec_save_protocol (stale_tmp : Bool) (state : SavedState) : List FsOp :=
  [FsOp.new_unnamed_file, FsOp.serialize state, FsOp.flush, FsOp.sync_all] ++
    (if stale_tmp then [FsOp.remove_file_tmp] else []) ++
    [FsOp.link_file_at_tmp, FsOp.sync_all, FsOp.local_rename]

/-- The state carried by the first `serialize` operation of a trace, if
any: the content the code persists at that point. -/
def first_serialized (ops : List FsOp) : Option SavedState :=
  match ops with
  | [] => none
  | FsOp.serialize s :: _ => some s
  | _ :: rest => first_serialized rest

/-- A boot component implementation, modelling the `dyn Component` trait
object of `component.rs` (outside the excerpt) as the record of the
capabilities `bootupd.rs` invokes.  `install` returns the value stored in
`SavedState.installed`; `query_update` is the read-only probe for a
candidate; `run_update` performs the payload mutation and yields the new
installed content. -/
structure ComponentImpl where
  name : String
  install : String → String → Except String InstalledContent
  query_update : Except String (Option ContentMetadata)
  run_update : InstalledContent → Except String InstalledContent

/-- Modelled from the spec: `component::new_from_name` (in `component.rs`,
outside the excerpt) resolves a registered component by its unique name and
fails with a not-found error for unknown names. -/
def new_from_name (reg : List ComponentImpl) (name : String) :
    Except String ComponentImpl :=
  match reg.find? (fun c => c.name == name) with
  | some c => Except.ok c
  | none => Except.error ("No component found: " ++ name)

/-- `ComponentUpdateResult` from `bootupd.rs`: return value from daemon to
client for a component update. -/
inductive ComponentUpdateResult where
  | AtLatestVersion
  | Updated (previous : ContentMetadata) (interrupted : Option ContentMetadata)
      (new : ContentMetadata)
deriving DecidableEq, Repr

/-- The loop body of `install` in `bootupd.rs`: call each component's
`install` and accumulate the returned content into the `installed` map,
stopping at the first failure. -/
def install_components (comps : List ComponentImpl) (src dst : String)
    (acc : List (String × InstalledContent)) :
    Except String (List (String × InstalledContent)) :=
  match comps with
  | [] => Except.ok acc
  | c :: rest =>
    match c.install src dst with
    | Except.error e => Except.error e
    | Except.ok meta => install_components rest src dst (alist_insert acc c.name meta)

/-- `install` from `bootupd.rs` (first-run setup), parametrised by the
platform registry `reg` (`get_components`) and the destination root's
filesystem.  Fails if the state file already exists; succeeds doing nothing
when the registry is empty; otherwise installs every component and persists
a fresh `SavedState` once at the end.  Note the source takes no write
lock here. -/
def install (reg : List ComponentImpl) (fs : Fs) (source_root dest_root : String) :
    Except String Unit × Fs × List FsOp :=
  if (get_saved_state fs).isSome then
    (Except.error (dest_root ++ "/" ++ STATEFILE_DIR ++ "/" ++ STATEFILE_NAME ++
      " already exists, cannot re-install"), fs, [])
  else if reg.isEmpty then
    (Except.ok (), fs, [])
  else
    match install_components reg source_root dest_root [] with
    | Except.error e => (Except.error e, fs, [])
    | Except.ok installed =>
      let saved := update_state fs { installed := installed, pending := none }
      (Except.ok (), saved.1, saved.2)

/-- The tail of `update` in `bootupd.rs` once a strictly newer candidate
`p` has been accepted: `state.pending.take()` into a local container, note
any interrupted entry for this component, insert the candidate into the
local container, persist, run the component update (wrapping failures with
the component name), replace the installed entry, remove the candidate from
the local container, persist again.  Returns the result (or error), the
final filesystem, and the operations performed here. -/
def update_exec (fs : Fs) (state : SavedState) (component : ComponentImpl)
    (inst : InstalledContent) (p : ContentMetadata) :
    Except String ComponentUpdateResult × Fs × List FsOp :=
  let pending_container := state.pending.getD []
  let state1 : SavedState := { state with pending := none }
  let interrupted := alist_get pending_container component.name
  let pending_container := alist_insert pending_container component.name p
  let save1 := update_state fs state1
  match component.run_update inst with
  | Except.error e =>
    (Except.error ("Failed to update " ++ component.name ++ ": " ++ e),
      save1.1, save1.2)
  | Except.ok newinst =>
    let state2 : SavedState :=
      { state1 with installed := alist_insert state1.installed component.name newinst }
    let _pending_container := alist_remove pending_container component.name
    let save2 := update_state save1.1 state2
    (Except.ok (ComponentUpdateResult.Updated inst.meta interrupted p),
      save2.1, save1.2 ++ save2.2)

/-- The dispatch of `update` in `bootupd.rs` after the lock is held and the
state is loaded: resolve the component, require it installed, query for a
candidate, and return `AtLatestVersion` unless the candidate is a strict
upgrade, in which case hand over to `update_exec`. -/
def update_core (reg : List ComponentImpl) (state : SavedState) (fs : Fs)
    (name : String) : Except String ComponentUpdateResult × Fs × List FsOp :=
  match new_from_name reg name with
  | Except.error e => (Except.error e, fs, [])
  | Except.ok component =>
    match alist_get state.installed name with
    | none => (Except.error ("Component " ++ name ++ " is not installed"), fs, [])
    | some inst =>
      match component.query_update with
      | Except.error e => (Except.error e, fs, [])
      | Except.ok found =>
        match found with
        | some p =>
          if inst.meta.can_upgrade_to p then update_exec fs state component inst p
          else (Except.ok ComponentUpdateResult.AtLatestVersion, fs, [])
        | none => (Except.ok ComponentUpdateResult.AtLatestVersion, fs, [])

/-- `update` from `bootupd.rs` (daemon implementation of component update),
parametrised by the registry and the root filesystem: acquire the write
lock, load the state (absent means default), then dispatch through
`update_core`.  Returns the result (or error), the final filesystem, and
the full operation trace. -/
def update (reg : List ComponentImpl) (fs : Fs) (name : String) :
    Except String ComponentUpdateResult × Fs × List FsOp :=
  let core := update_core reg ((get_saved_state fs).getD {}) fs name
  (core.1, core.2.1, [FsOp.acquire_lock, FsOp.load_state] ++ core.2.2)

/-- `ValidationResult` from `component.rs` (outside the excerpt), as matched
by `client_run_validate`: either valid, or a list of discrepancy strings.
The component contract in the spec says the list is non-empty. -/
inductive ValidationResult where
  | Valid
  | Errors (errs : List String)
deriving DecidableEq, Repr

/-- `ClientRequest` from `bootupd.rs`: a message sent from client to
server. -/
inductive ClientRequest where
  | Update (component : String)
  | Validate (component : String)
  | Status
deriving DecidableEq, Repr

/-- `ComponentUpdatable` from `model.rs` (outside the excerpt): the derived
updatability classification carried in a status reply. -/
inductive ComponentUpdatable where
  | NoUpdateAvailable
  | AtLatestVersion
  | WouldDowngrade
  | Upgradable
deriving DecidableEq, Repr

/-- `ComponentStatus` from `model.rs` (outside the excerpt): the per-component
part of a `Status` reply, as read by the client drivers. -/
structure ComponentStatus where
  installed : ContentMetadata
  interrupted : Option ContentMetadata
  update : Option ContentMetadata
  updatable : ComponentUpdatable
deriving DecidableEq, Repr

/-- `validate_preview_env` from `bootupd.rs`: fails unless the
`BOOTUPD_ACCEPT_PREVIEW` environment variable is present (its value is
never inspected).  The environment is modelled as the variable's optional
value. -/
def validate_preview_env (env : Option String) : Except String Unit :=
  match env with
  | none => Except.error
      "bootupd is currently alpha; set BOOTUPD_ACCEPT_PREVIEW=1 in environment to continue"
  | some _ => Except.ok ()

/-- The per-component loop of `client_run_update`: skip components not
classified `Upgradable`; for the others send an `Update` request and render
the reply (a race warning for `AtLatestVersion`; otherwise an optional
interrupted warning and the updated line, setting the `updated` flag).
Returns the requests sent, the lines printed, and the `updated` flag. -/
def client_update_loop (comps : List (String × ComponentStatus))
    (respond : String → ComponentUpdateResult) :
    List ClientRequest × List String × Bool :=
  match comps with
  | [] => ([], [], false)
  | (name, cstatus) :: rest =>
    let tail := client_update_loop rest respond
    match cstatus.updatable with
    | ComponentUpdatable.Upgradable =>
      let step :=
        match respond name with
        | ComponentUpdateResult.AtLatestVersion =>
          (["warning: Expected update for " ++ name ++ ", raced with a different client?"],
            false)
        | ComponentUpdateResult.Updated _ interrupted new =>
          let warns :=
            match interrupted with
            | some i =>
              ["warning: Continued from previous interrupted update: " ++ toString i.version]
            | none => []
          (warns ++ ["Updated " ++ name ++ ": " ++ toString new.version], true)
      (ClientRequest.Update name :: tail.1, step.1 ++ tail.2.1, step.2 || tail.2.2)
    | _ => tail

/-- The body of `client_run_update` after the preview gate: send a `Status`
request, handle the no-components case, otherwise run the update loop and
append the no-update line if nothing was updated.  The daemon's status
reply is `comps`; its update replies are `respond`. -/
def client_run_update_body (comps : List (String × ComponentStatus))
    (respond : String → ComponentUpdateResult) :
    List ClientRequest × List String × Except String Unit :=
  if comps.isEmpty then
    ([ClientRequest.Status], ["No components installed."], Except.ok ())
  else
    let looped := client_update_loop comps respond
    (ClientRequest.Status :: looped.1,
      looped.2.1 ++ (if looped.2.2 then [] else ["No update available for any component."]),
      Except.ok ())

/-- `client_run_update` from `bootupd.rs`: check the preview environment
gate first (failing before any request is sent), then run the body. -/
def client_run_update (env : Option String) (comps : List (String × ComponentStatus))
    (respond : String → ComponentUpdateResult) :
    List ClientRequest × List String × Except String Unit :=
  match validate_preview_env env with
  | Except.error e => ([], [], Except.error e)
  | Except.ok _ => client_run_update_body comps respond

/-- The per-component loop of `client_run_validate`: for each installed
component (paired here with the daemon's validate reply), print the
validated line or each discrepancy string, and record whether any
validation error was caught.  Returns the lines printed, and the
`caught_validation_error` flag. -/
def client_run_validate_loop (comps : List (String × ValidationResult)) :
    List String × Bool :=
  match comps with
  | [] => ([], false)
  | (name, r) :: rest =>
    let tail := client_run_validate_loop rest
    let step :=
      match r with
      | ValidationResult.Valid => (["Validated: " ++ name], false)
      | ValidationResult.Errors errs => (errs, true)
    (step.1 ++ tail.1, step.2 || tail.2)

/-- `client_run_validate` from `bootupd.rs`: handle the no-components case,
otherwise validate every component and fail at the end if any validation
error was caught.  The daemon's per-component replies are given as
`comps`. -/
def client_run_validate (comps : List (String × ValidationResult)) :
    List String × Except String Unit :=
  if comps.isEmpty then (["No components installed."], Except.ok ())
  else
    let looped := client_run_validate_loop comps
    if looped.2 then (looped.1, Except.error "Caught validation errors")
    else (looped.1, Except.ok ())

/-- Every reported error list in a batch of validate replies is non-empty,
as the component contract guarantees. -/
def errors_nonempty (comps : List (String × ValidationResult)) : Bool :=
  comps.all fun p =>
    match p.2 with
    | ValidationResult.Errors errs => !errs.isEmpty
    | ValidationResult.Valid => true

/-- Metadata of the installed EFI payload in the concrete scenarios. -/
def efiMeta1 : ContentMetadata := { version := 1, fingerprint := "sha-a" }

/-- Metadata of the strictly newer EFI candidate in the concrete scenarios. -/
def efiMeta2 : ContentMetadata := { version := 2, fingerprint := "sha-b" }

/-- Installed content for version 1 of the EFI component. -/
def efiInst1 : InstalledContent := { meta := efiMeta1, bookkeeping := "efi-files" }

/-- Installed content for version 2 of the EFI component. -/
def efiInst2 : InstalledContent := { meta := efiMeta2, bookkeeping := "efi-files" }

/-- An EFI component whose `run_update` succeeds, offering version 2. -/
def efiComp : ComponentImpl :=
  { name := "EFI"
    install := fun _ _ => Except.ok efiInst1
    query_update := Except.ok (some efiMeta2)
    run_update := fun _ => Except.ok efiInst2 }

/-- The EFI component with a failing `run_update`. -/
def efiCompFailing : ComponentImpl :=
  { efiComp with run_update := fun _ => Except.error "boom" }

/-- The EFI component when the best discoverable candidate equals the
installed version (no strict upgrade). -/
def efiCompLatest : ComponentImpl :=
  { efiComp with query_update := Except.ok (some efiMeta1) }

/-- Registry holding the healthy EFI component. -/
def regOk : List ComponentImpl := [efiComp]

/-- Registry holding the EFI component with failing `run_update`. -/
def regFailing : List ComponentImpl := [efiCompFailing]

/-- Registry holding the EFI component already at the latest version. -/
def regLatest : List ComponentImpl := [efiCompLatest]

/-- A root whose state file records EFI version 1 installed, no pending. -/
def fsInstalled : Fs :=
  { stateFile := some { installed := [("EFI", efiInst1)], pending := none }
    tmpFile := none }

/-- A root whose state file records EFI version 1 installed and a pending
entry for a different component. -/
def fsPendingOther : Fs :=
  { stateFile :=
      some { installed := [("EFI", efiInst1)], pending := some [("BIOS", efiMeta2)] }
    tmpFile := none }

/-- A fresh root with no state file. -/
def fsEmpty : Fs := { stateFile := none, tmpFile := none }

theorem update_state_fst (fs : Fs) (s : SavedState) :
    (update_state fs s).1 = { stateFile := some s, tmpFile := none } := by
  cases h : fs.tmpFile <;> simp [update_state, h]

theorem update_state_no_lock (fs : Fs) (s : SavedState) :
    FsOp.acquire_lock ∉ (update_state fs s).2 := by
  cases h : fs.tmpFile <;> simp [update_state, h]

theorem validate_loop_caught_iff (comps : List (String × ValidationResult)) :
    (client_run_validate_loop comps).2 = true ↔
      ∃ n errs, (n, ValidationResult.Errors errs) ∈ comps := by
  induction comps with
  | nil => simp [client_run_validate_loop]
  | cons hd tl ih =>
    obtain ⟨name, r⟩ := hd
    cases r with
    | Valid =>
      simp only [client_run_validate_loop, Bool.false_or, ih, List.mem_cons]
      constructor
      · rintro ⟨n, errs, hm⟩
        exact ⟨n, errs, Or.inr hm⟩
      · rintro ⟨n, errs, hm | hm⟩
        · cases hm
        · exact ⟨n, errs, hm⟩
    | Errors errs =>
      simp only [client_run_validate_loop, Bool.true_or, List.mem_cons]
      constructor
      · intro _
        exact ⟨name, errs, Or.inl rfl⟩
      · intro _
        trivial

theorem validate_loop_reports_errors (n : String) (errs : List String) (e : String)
    (he : e ∈ errs) :
    ∀ comps : List (String × ValidationResult),
      (n, ValidationResult.Errors errs) ∈ comps →
        e ∈ (client_run_validate_loop comps).1 := by
  intro comps
  induction comps with
  | nil => intro hm; cases hm
  | cons hd tl ih =>
    intro hm
    obtain ⟨name, r⟩ := hd
    rcases List.mem_cons.mp hm with heq | htl
    · cases heq
      simp only [client_run_validate_loop, List.mem_append]
      exact Or.inl he
    · cases r <;>
        simpa only [client_run_validate_loop, List.mem_append] using Or.inr (ih htl)

theorem validate_loop_reports_valid (n : String) :
    ∀ comps : List (String × ValidationResult),
      (n, ValidationResult.Valid) ∈ comps →
        ("Validated: " ++ n) ∈ (client_run_validate_loop comps).1 := by
  intro comps
  induction comps with
  | nil => intro hm; cases hm
  | cons hd tl ih =>
    intro hm
    obtain ⟨name, r⟩ := hd
    rcases List.mem_cons.mp hm with heq | htl
    · cases heq
      simp [client_run_validate_loop]
    · cases r <;>
        simpa only [client_run_validate_loop, List.mem_append] using Or.inr (ih htl)


/-- Claim C1: the spec requires the SavedState persisted immediately before
`run_update` to contain the candidate's metadata under `pending[name]`.  The
code violates this: `state.pending.take()` moves the pending map into a
local container that is never written back, so in a run that finds a
strictly newer candidate (EFI 1 upgrading to 2) the state serialized at the
checkpoint has `pending = none` — the candidate is not recorded. -/
theorem update_checkpoint_lacks_pending :
    (update regOk fsInstalled "EFI").1 =
      Except.ok (ComponentUpdateResult.Updated efiMeta1 none efiMeta2) ∧
    first_serialized (update regOk fsInstalled "EFI").2.2 =
      some { installed := [("EFI", efiInst1)], pending := none } :=
  ⟨rfl, rfl⟩

/-- Claim C2: when `run_update` fails, the error is indeed propagated with
the component name attached, but the claim that `pending[name]` remains set
in the persisted state fails on the code: the persisted checkpoint was
written with `pending = none` (the candidate only ever lived in a local
container), so after the failure the state on disk has no pending entry at
all. -/
theorem update_failure_persisted_pending_absent :
    (update regFailing fsInstalled "EFI").1 =
      Except.error "Failed to update EFI: boom" ∧
    ((update regFailing fsInstalled "EFI").2.1).stateFile =
      some { installed := [("EFI", efiInst1)], pending := none } :=
  ⟨rfl, rfl⟩

/-- Claim C3: after a failed update of EFI (candidate version 2 was
supposedly recorded as pending), a subsequent successful update must report
`interrupted = some` of that candidate.  On the code the retry reports
`interrupted = none`, because the first run never persisted the pending
entry. -/
theorem update_retry_after_failure_reports_no_interruption :
    (update regOk ((update regFailing fsInstalled "EFI").2.1) "EFI").1 =
      Except.ok (ComponentUpdateResult.Updated efiMeta1 none efiMeta2) :=
  rfl

/-- Counterexample to claim C4 as stated: on a root with no stale temporary
file, the trace of `update_state` is not the spec's protocol (which syncs
once before linking and once after); the code performs its single sync only
after the link. -/
theorem update_state_differs_from_claimed_protocol :
    (update_state fsEmpty { installed := [], pending := none }).2 ≠
      spec_save_protocol false { installed := [], pending := none } := by
  decide

/-- Claim C4 (amended): the atomic state-save serializes to a freshly
created unnamed file in the destination directory, flushes its buffered
contents (without a separate durable sync at that point), links it to a
temporary name (removing any stale temporary name first), durably syncs
once, then atomically renames the temporary name over the canonical state
filename — leaving the canonical file holding the new state and no
temporary file. -/
theorem update_state_actual_protocol (fs : Fs) (s : SavedState) :
    (update_state fs s).2 =
      [FsOp.new_unnamed_file, FsOp.serialize s, FsOp.flush] ++
        (match fs.tmpFile with
          | some _ => [FsOp.remove_file_tmp]
          | none => []) ++
        [FsOp.link_file_at_tmp, FsOp.sync_all, FsOp.local_rename] ∧
    (update_state fs s).1 = { stateFile := some s, tmpFile := none } := by
  cases h : fs.tmpFile <;> simp [update_state, h]

/-- Counterexample to claim C5 as stated: a concrete `install` run that
persists state (the rename of the state file appears in its trace) without
ever acquiring the write lock. -/
theorem install_takes_no_lock :
    FsOp.acquire_lock ∉ (install regOk fsEmpty "/src" "/dst").2.2 ∧
    FsOp.local_rename ∈ (install regOk fsEmpty "/src" "/dst").2.2 := by
  decide

/-- Claim C5 (amended): `update` follows the lock discipline — its trace
always begins with the exclusive lock acquisition followed by the state
load, before any other operation — but `install` acquires no write lock at
all on any input. -/
theorem lock_discipline (reg : List ComponentImpl) (fs : Fs)
    (name src dst : String) :
    (update reg fs name).2.2.take 2 = [FsOp.acquire_lock, FsOp.load_state] ∧
    FsOp.acquire_lock ∉ (install reg fs src dst).2.2 := by
  constructor
  · rfl
  · simp only [install]
    repeat' split
    all_goals first
      | exact update_state_no_lock _ _
      | simp

/-- Claim C6: whenever the component resolves and is installed but reports
no candidate, or a candidate that is not a strict upgrade, `update` returns
`AtLatestVersion`, leaves the filesystem untouched, and performs no save
operation (its trace is just the lock acquisition and the state load). -/
theorem update_noop_when_not_upgradable (reg : List ComponentImpl) (fs : Fs)
    (name : String) (comp : ComponentImpl) (inst : InstalledContent)
    (hcomp : new_from_name reg name = Except.ok comp)
    (hinst : alist_get ((get_saved_state fs).getD {}).installed name = some inst)
    (hupd : comp.query_update = Except.ok none ∨
      ∃ p, comp.query_update = Except.ok (some p) ∧
        inst.meta.can_upgrade_to p = false) :
    update reg fs name =
      (Except.ok ComponentUpdateResult.AtLatestVersion, fs,
        [FsOp.acquire_lock, FsOp.load_state]) := by
  have hcore : update_core reg ((get_saved_state fs).getD {}) fs name =
      (Except.ok ComponentUpdateResult.AtLatestVersion, fs, []) := by
    rcases hupd with hq | ⟨p, hq, hcu⟩
    · simp [update_core, hcomp, hinst, hq]
    · simp [update_core, hcomp, hinst, hq, hcu]
  simp [update, hcore]

/-- Witness for claim C6: the EFI component installed at version 1 whose
best candidate is also version 1. -/
theorem update_noop_when_not_upgradable_witness :
    update regLatest fsInstalled "EFI" =
      (Except.ok ComponentUpdateResult.AtLatestVersion, fsInstalled,
        [FsOp.acquire_lock, FsOp.load_state]) :=
  update_noop_when_not_upgradable regLatest fsInstalled "EFI" efiCompLatest
    efiInst1 rfl rfl (Or.inr ⟨efiMeta1, rfl, rfl⟩)

theorem update_core_success_state (reg : List ComponentImpl) (state : SavedState)
    (fs : Fs) (name : String) (prev : ContentMetadata)
    (intr : Option ContentMetadata) (nw : ContentMetadata) :
    (update_core reg state fs name).1 =
        Except.ok (ComponentUpdateResult.Updated prev intr nw) →
      ∃ ins, (update_core reg state fs name).2.1.stateFile =
        some { installed := ins, pending := none } := by
  unfold update_core
  split
  · intro h; simp at h
  · split
    · intro h; simp at h
    · split
      · intro h; simp at h
      · split
        · split
          · unfold update_exec
            split
            · intro h; simp at h
            · intro _
              exact ⟨_, by rw [update_state_fst]⟩
          · intro h; simp at h
        · intro h; simp at h

/-- Claim C9: every `update` invocation that returns `Updated` leaves a
final persisted `SavedState` whose `pending` map is entirely absent — in
particular pending entries previously recorded for other components are
dropped as well, because `state.pending.take()` empties the field and it is
never reassigned before either persist. -/
theorem update_success_clears_pending (reg : List ComponentImpl) (fs : Fs)
    (name : String) (prev : ContentMetadata) (intr : Option ContentMetadata)
    (nw : ContentMetadata) (fs2 : Fs) (tr : List FsOp)
    (h : update reg fs name =
      (Except.ok (ComponentUpdateResult.Updated prev intr nw), fs2, tr)) :
    ∃ ins, fs2.stateFile = some { installed := ins, pending := none } := by
  simp only [update, Prod.mk.injEq] at h
  obtain ⟨h1, h2, h3⟩ := h
  subst h2
  exact update_core_success_state reg _ fs name prev intr nw h1

/-- Witness for claim C9: an update of EFI on a root whose state carries a
pending entry for a different component (BIOS); the final persisted state
has no pending map at all. -/
theorem update_success_clears_pending_witness :
    ∃ ins, ((update regOk fsPendingOther "EFI").2.1).stateFile =
      some { installed := ins, pending := none } :=
  update_success_clears_pending regOk fsPendingOther "EFI" efiMeta1 none efiMeta2
    (update regOk fsPendingOther "EFI").2.1 (update regOk fsPendingOther "EFI").2.2
    rfl

/-- Claim C10: with an empty platform registry, `install` on a fresh root
succeeds without touching the filesystem (no state file is created and no
operation is performed), so a later install against the same destination
passes the already-exists check and succeeds as well. -/
theorem install_empty_registry_noop (fs : Fs) (src dst src2 dst2 : String)
    (h : fs.stateFile = none) :
    install [] fs src dst = (Except.ok (), fs, []) ∧
    (install [] ((install [] fs src dst).2.1) src2 dst2).1 = Except.ok () := by
  have h1 : install [] fs src dst = (Except.ok (), fs, []) := by
    simp [install, get_saved_state, h]
  refine ⟨h1, ?_⟩
  rw [h1]
  simp [install, get_saved_state, h]

/-- Witness for claim C10: two consecutive installs with the empty registry
on a fresh root. -/
theorem install_empty_registry_noop_witness :
    install [] fsEmpty "/src" "/dst" = (Except.ok (), fsEmpty, []) ∧
    (install [] ((install [] fsEmpty "/src" "/dst").2.1) "/src2" "/dst2").1 =
      Except.ok () :=
  install_empty_registry_noop fsEmpty "/src" "/dst" "/src2" "/dst2" rfl

theorem client_run_validate_fst (comps : List (String × ValidationResult))
    (hne : comps.isEmpty = false) :
    (client_run_validate comps).1 = (client_run_validate_loop comps).1 := by
  cases hcaught : (client_run_validate_loop comps).2 <;>
    simp [client_run_validate, hne, hcaught]

/-- Claim C7: the client validation driver reports every component's
individual discrepancy strings (it does not abort early on the first
failing component, and valid components are still reported afterwards),
and returns a failure exactly when at least one component's validation
returned a non-empty error list.  `comps` pairs each installed component
with the daemon's validate reply; the hypothesis is the component
contract's guarantee that reported error lists are non-empty. -/
theorem client_run_validate_reports_all (comps : List (String × ValidationResult))
    (hwf : errors_nonempty comps = true) :
    ((client_run_validate comps).2 = Except.error "Caught validation errors" ↔
      ∃ n errs, (n, ValidationResult.Errors errs) ∈ comps ∧ errs ≠ []) ∧
    (∀ n errs e, (n, ValidationResult.Errors errs) ∈ comps → e ∈ errs →
      e ∈ (client_run_validate comps).1) ∧
    ∀ n, (n, ValidationResult.Valid) ∈ comps →
      ("Validated: " ++ n) ∈ (client_run_validate comps).1 := by
  cases comps with
  | nil =>
    refine ⟨?_, ?_, ?_⟩
    · simp [client_run_validate]
    · intro n errs e hm
      cases hm
    · intro n hm
      cases hm
  | cons hd tl =>
    have hne : (hd :: tl).isEmpty = false := rfl
    refine ⟨?_, ?_, ?_⟩
    · constructor
      · intro herr
        by_cases hcaught : (client_run_validate_loop (hd :: tl)).2 = true
        · obtain ⟨n, errs, hm⟩ := (validate_loop_caught_iff _).mp hcaught
          refine ⟨n, errs, hm, ?_⟩
          have hp := List.all_eq_true.mp hwf (n, ValidationResult.Errors errs) hm
          simp only [Bool.not_eq_true'] at hp
          intro hnil
          subst hnil
          simp at hp
        · exfalso
          have hbool : (client_run_validate_loop (hd :: tl)).2 = false :=
            Bool.not_eq_true _ ▸ Bool.eq_false_iff.mpr hcaught
          have hok : (client_run_validate (hd :: tl)).2 = Except.ok () := by
            simp [client_run_validate, hne, hbool]
          rw [hok] at herr
          simp at herr
      · rintro ⟨n, errs, hm, hne2⟩
        have hcaught : (client_run_validate_loop (hd :: tl)).2 = true :=
          (validate_loop_caught_iff _).mpr ⟨n, errs, hm⟩
        simp [client_run_validate, hne, hcaught]
    · intro n errs e hm he
      rw [client_run_validate_fst _ hne]
      exact validate_loop_reports_errors n errs e he _ hm
    · intro n hm
      rw [client_run_validate_fst _ hne]
      exact validate_loop_reports_valid n _ hm

/-- Witness for claim C7: one component with a discrepancy followed by a
valid one — the run fails, the discrepancy is reported, and the later valid
component is still processed. -/
theorem client_run_validate_reports_all_witness :
    ((client_run_validate [("shim", ValidationResult.Errors ["bad checksum"]),
        ("grub", ValidationResult.Valid)]).2 = Except.error "Caught validation errors" ↔
      ∃ n errs, (n, ValidationResult.Errors errs) ∈
          [("shim", ValidationResult.Errors ["bad checksum"]),
            ("grub", ValidationResult.Valid)] ∧ errs ≠ []) ∧
    (∀ n errs e, (n, ValidationResult.Errors errs) ∈
        [("shim", ValidationResult.Errors ["bad checksum"]),
          ("grub", ValidationResult.Valid)] → e ∈ errs →
      e ∈ (client_run_validate [("shim", ValidationResult.Errors ["bad checksum"]),
        ("grub", ValidationResult.Valid)]).1) ∧
    ∀ n, (n, ValidationResult.Valid) ∈
        [("shim", ValidationResult.Errors ["bad checksum"]),
          ("grub", ValidationResult.Valid)] →
      ("Validated: " ++ n) ∈
        (client_run_validate [("shim", ValidationResult.Errors ["bad checksum"]),
          ("grub", ValidationResult.Valid)]).1 :=
  client_run_validate_reports_all
    [("shim", ValidationResult.Errors ["bad checksum"]),
      ("grub", ValidationResult.Valid)] rfl

/-- Claim C8: with the gating environment variable absent the client update
driver fails with the alpha message having sent no request at all; with the
variable present, whatever its value, the run proceeds (its first request
is `Status`) and is identical to the run with any other value such as
`"1"`. -/
theorem client_update_env_gate (comps : List (String × ComponentStatus))
    (respond : String → ComponentUpdateResult) :
    client_run_update none comps respond =
      ([], [], Except.error
        "bootupd is currently alpha; set BOOTUPD_ACCEPT_PREVIEW=1 in environment to continue") ∧
    ∀ v : String,
      (client_run_update (some v) comps respond).1.head? =
        some ClientRequest.Status ∧
      client_run_update (some v) comps respond =
        client_run_update (some "1") comps respond := by
  refine ⟨rfl, fun v => ⟨?_, rfl⟩⟩
  cases hc : comps.isEmpty <;>
    simp [client_run_update, validate_preview_env, client_run_update_body, hc]
